import Mathlib

/-!
Verification of the quant-monitor-system front end (static/js/app.js and
static/js/app_fixed.js) against its natural-language specification.

The JavaScript is shallowly embedded: JS objects become association lists
of string-keyed values, property reads return an explicit `undefined`
value when the key is absent, and the stateful event handlers become
functions from state to state that are folded over event sequences.
-/

namespace QuantMonitor

/-- Shallow model of the JavaScript values the front end manipulates.
Numbers are modelled as integers (the code only stores, compares and
formats them); `vundefined` is the result of reading an absent property. -/
inductive JsVal where
  | vundefined : JsVal
  | vnull : JsVal
  | vbool : Bool → JsVal
  | vnum : Int → JsVal
  | vstr : String → JsVal
  | vobj : List (String × JsVal) → JsVal

/-- A JavaScript object: an insertion-ordered association list of
properties with unique keys. -/
abbrev JsObj := List (String × JsVal)

/-- Property read `o[k]`: the first binding of `k`, or `undefined` when the
key is absent (as in JavaScript). -/
def jsGetD : JsObj → String → JsVal
  | [], _ => .vundefined
  | (k', v) :: rest, k => if k' = k then v else jsGetD rest k

/-- JavaScript truthiness of a value: `undefined`, `null`, `false`, `0` and
the empty string are falsy; every object is truthy. -/
def jsTruthy : JsVal → Bool
  | .vundefined => false
  | .vnull => false
  | .vbool b => b
  | .vnum n => n != 0
  | .vstr s => s != ""
  | .vobj _ => true

/-- JavaScript `v || d` on values: `v` when truthy, otherwise `d`. -/
def jsOr (v d : JsVal) : JsVal := if jsTruthy v then v else d

/-- Property write `o[k] = v`: overwrite the binding in place when the key
exists, otherwise append it. -/
def setKey (o : JsObj) (k : String) (v : JsVal) : JsObj :=
  if o.any (fun p => p.1 == k) then
    o.map (fun p => if p.1 == k then (k, v) else p)
  else o ++ [(k, v)]

/-- The object denoted by an object literal: fields assigned left to right,
a later duplicate key overwriting an earlier one. -/
def objLit (fs : List (String × JsVal)) : JsObj :=
  fs.foldl (fun o p => setKey o p.1 p.2) []

/-- Spreading a value into an object literal (`...v`): an object
contributes its properties; `undefined`, `null` and the primitives the
code spreads contribute none. -/
def jsSpread : JsVal → List (String × JsVal)
  | .vobj fs => fs
  | _ => []

/-- Coercion of a value to a property key, as in `obj[v] = w`. -/
def jsKeyString : JsVal → String
  | .vundefined => "undefined"
  | .vnull => "null"
  | .vbool b => if b then "true" else "false"
  | .vnum n => toString n
  | .vstr s => s
  | .vobj _ => "[object Object]"

/-- Reading a property of a value (`v.k`): only objects have properties. -/
def objGet (v : JsVal) (k : String) : JsVal :=
  match v with
  | .vobj fs => jsGetD fs k
  | _ => .vundefined

/-- The decimal string produced by `(num / den).toFixed(2)` on the exact
rational `num / den`: two digits after the point, rounded half up. -/
def toFixed2 (num den : Nat) : String :=
  let scaled := (num * 200 + den) / (den * 2)
  let ip := scaled / 100
  let fp := scaled % 100
  toString ip ++ "." ++ (if fp < 10 then "0" ++ toString fp else toString fp)

/-- app.js `formatVolume`: a falsy volume (0, `null`, `undefined`, modelled
by `none` or `some 0`) renders as `"N/A"`; otherwise the value is formatted
with a B/M/K suffix by magnitude, or printed as a plain decimal. -/
def formatVolume : Option Nat → String
  | none => "N/A"
  | some v =>
    if v = 0 then "N/A"
    else if 1000000000 ≤ v then toFixed2 v 1000000000 ++ "B"
    else if 1000000 ≤ v then toFixed2 v 1000000 ++ "M"
    else if 1000 ≤ v then toFixed2 v 1000 ++ "K"
    else toString v

/-- The suffix of the last `n` elements of a list (all of it when it is
shorter than `n`). -/
def lastN (n : Nat) (l : List α) : List α := l.drop (l.length - n)

/-- One `stock_update` event as the chart code consumes it: the symbol, the
optional numeric price and volume of its payload (absent fields are
`none`), and the wall-clock label the handler pushes as timestamp. -/
structure ChartEvent where
  symbol : String
  price : Option Nat
  volume : Option Nat
  ts : String

/-- The per-symbol chart buffers of app.js: three parallel arrays. -/
structure ChartEntry where
  prices : List Nat
  volumes : List Nat
  timestamps : List String

/-- The entry app.js creates for a symbol not yet present in
`this.chartData`: three empty arrays. Absent map entries are represented
by this value, which the creation branch makes observationally exact. -/
def emptyChartEntry : ChartEntry := ⟨[], [], []⟩

/-- JavaScript `v || 0` on an optional number: `0`, `null` and `undefined`
all give `0`. -/
def jsOrZero : Option Nat → Nat
  | some n => n
  | none => 0

/-- app.js `updateChartData` restricted to one symbol's entry: push
`price || 0`, `volume || 0` and the time label onto the three arrays;
when the prices array exceeds 20 points, shift (drop the front of) all
three. -/
def chartStep (e : ChartEntry) (ev : ChartEvent) : ChartEntry :=
  let pushed : ChartEntry :=
    ⟨e.prices ++ [jsOrZero ev.price],
     e.volumes ++ [jsOrZero ev.volume],
     e.timestamps ++ [ev.ts]⟩
  if 20 < pushed.prices.length then
    ⟨pushed.prices.tail, pushed.volumes.tail, pushed.timestamps.tail⟩
  else pushed

/-- app.js `updateChartData` on the whole `this.chartData` map: only the
event's symbol's entry changes. -/
def updateChartData (cd : String → ChartEntry) (ev : ChartEvent) :
    String → ChartEntry :=
  fun s => if s = ev.symbol then chartStep (cd s) ev else cd s

/-- The app.js chart-data map after a sequence of stock_update events,
starting from the initial empty map. -/
def runChart (evs : List ChartEvent) : String → ChartEntry :=
  evs.foldl updateChartData (fun _ => emptyChartEntry)

/-- The events of a sequence that app.js pushes into symbol `s`'s chart
entry: every event for that symbol. -/
def pushedPoints (evs : List ChartEvent) (s : String) : List ChartEvent :=
  evs.filter (fun ev => ev.symbol == s)

/-- One dataset point of the app_fixed.js chart. -/
structure ChartPoint where
  x : String
  y : Nat

/-- app_fixed.js `updateChartData` restricted to one symbol's dataset:
return unchanged on a falsy price (`undefined`, `null` or `0`); otherwise
push the point and shift when over 20. Only the rolling `data` array of
the dataset is modelled (label and color never change). -/
def chartStepFixed (data : List ChartPoint) (ev : ChartEvent) :
    List ChartPoint :=
  match ev.price with
  | none => data
  | some p =>
    if p = 0 then data
    else
      let pushed := data ++ [⟨ev.ts, p⟩]
      if 20 < pushed.length then pushed.tail else pushed

/-- app_fixed.js `updateChartData` on the whole per-symbol dataset map. -/
def updateChartDataFixed (cd : String → List ChartPoint) (ev : ChartEvent) :
    String → List ChartPoint :=
  fun s => if s = ev.symbol then chartStepFixed (cd s) ev else cd s

/-- The app_fixed.js chart-data map after a sequence of stock_update
events, starting from the empty map. -/
def runChartFixed (evs : List ChartEvent) : String → List ChartPoint :=
  evs.foldl updateChartDataFixed (fun _ => [])

/-- The events of a sequence that app_fixed.js pushes into symbol `s`'s
dataset: events for that symbol whose price is truthy. -/
def pushedPointsFixed (evs : List ChartEvent) (s : String) :
    List ChartEvent :=
  evs.filter (fun ev => ev.symbol == s && jsOrZero ev.price != 0)


/-- app.js `handleAlert` on the recent-alerts list: unshift the new alert
to the front; when the list then exceeds 20, pop the last (oldest)
entry. -/
def handleAlert (a : JsObj) (alerts : List JsObj) : List JsObj :=
  let l := a :: alerts
  if 20 < l.length then l.dropLast else l

/-- app_fixed.js `handleAlert`: plain push onto the end, with no bound. -/
def handleAlertFixed (a : JsObj) (alerts : List JsObj) : List JsObj :=
  alerts ++ [a]

/-- The app.js recent-alerts list after a sequence of alert events,
starting from the initial empty list. -/
def runAlerts (evs : List JsObj) : List JsObj :=
  evs.foldl (fun st a => handleAlert a st) []

/-- The app_fixed.js alerts list after a sequence of alert events,
starting from the initial empty list. -/
def runAlertsFixed (evs : List JsObj) : List JsObj :=
  evs.foldl (fun st a => handleAlertFixed a st) []

/-- A concrete alert event carrying every AlertEvent field of the spec. -/
def sampleAlert : JsObj :=
  objLit [("symbol", .vstr "AAPL"), ("type", .vstr "price_abnormal"),
    ("severity", .vstr "medium"), ("message", .vstr "price moved 6 percent"),
    ("data", .vobj [("price_change", .vnum 6)]),
    ("timestamp", .vnum 1700000000)]

/-- The sample alert with an extra unrelated field appended. -/
def sampleAlertExtra : JsObj := sampleAlert ++ [("extra", .vnum 1)]

/-- ASCII model of JavaScript `String.prototype.toUpperCase`. -/
def jsToUpperCase (s : String) : String :=
  String.mk (s.toList.map Char.toUpper)

/-- Model of JavaScript `String.prototype.trim`: strip leading and
trailing whitespace. -/
def jsTrim (s : String) : String :=
  String.mk (((s.toList.dropWhile Char.isWhitespace).reverse.dropWhile
    Char.isWhitespace).reverse)

/-- app_fixed.js `addStock`: trim and upper-case the input; return without
emitting on an empty symbol, or when `this.stocks[symbol]` is truthy;
otherwise emit a subscribe_stock request for the symbol. The first
component is the emitted subscription, if any; the second is
`this.stocks`, which `addStock` never writes. -/
def addStock (inputVal : String) (stocks : JsObj) : Option String × JsObj :=
  let symbol := jsToUpperCase (jsTrim inputVal)
  if symbol = "" then (none, stocks)
  else if jsTruthy (jsGetD stocks symbol) then (none, stocks)
  else (some symbol, stocks)

/-- A concrete `this.stocks` map with one monitored stock. -/
def sampleStocks : JsObj :=
  [("AAPL", .vobj [("price", .vnum 150), ("lastUpdate", .vnum 1700000000)])]

/-- app.js `handleStockUpdate`: destructure `symbol`, `data` and
`timestamp` from the message and store
`this.stocks[symbol] = { ...stockData, lastUpdate: timestamp }`. The
chart update it triggers is modelled separately by `updateChartData`. -/
def handleStockUpdate (msg : JsObj) (stocks : JsObj) : JsObj :=
  let symbol := jsGetD msg "symbol"
  let stockData := jsGetD msg "data"
  let timestamp := jsGetD msg "timestamp"
  setKey stocks (jsKeyString symbol)
    (.vobj (objLit (jsSpread stockData ++ [("lastUpdate", timestamp)])))

/-- app_fixed.js `handleStockUpdate`: same three fields, additionally
storing the symbol inside the entry. -/
def handleStockUpdateFixed (msg : JsObj) (stocks : JsObj) : JsObj :=
  let symbol := jsGetD msg "symbol"
  let stockData := jsGetD msg "data"
  let timestamp := jsGetD msg "timestamp"
  setKey stocks (jsKeyString symbol)
    (.vobj (objLit (jsSpread stockData
      ++ [("symbol", symbol), ("lastUpdate", timestamp)])))

/-- Modelled from the spec: a concrete instrument-update message of the
shape the spec states, carrying exactly the fields symbol, tier, sample,
indicatorSnapshot and timestamp (the engine that would emit the feed is
not part of the repository sources). -/
def specFeedMsgA : JsObj :=
  objLit [("symbol", .vstr "AAPL"), ("tier", .vstr "realtime"),
    ("sample", .vobj [("price", .vnum 100), ("volume", .vnum 1000)]),
    ("indicatorSnapshot", .vobj [("rsi", .vnum 50)]),
    ("timestamp", .vnum 1700000000)]

/-- The same spec-shaped message with a different tier, sample and
indicator snapshot. -/
def specFeedMsgB : JsObj :=
  objLit [("symbol", .vstr "AAPL"), ("tier", .vstr "minute"),
    ("sample", .vobj [("price", .vnum 999), ("volume", .vnum 1000)]),
    ("indicatorSnapshot", .vobj [("rsi", .vnum 70)]),
    ("timestamp", .vnum 1700000000)]

/-- A stock_update message of the shape the handler actually
destructures. -/
def feedMsgA : JsObj :=
  objLit [("symbol", .vstr "NVDA"),
    ("data", .vobj [("price", .vnum 900), ("volume", .vnum 5000)]),
    ("timestamp", .vnum 1700000001)]

/-- The same delivered message with an extra unrelated field. -/
def feedMsgB : JsObj := feedMsgA ++ [("extra", .vnum 7)]

/-- app.js `loadSystemStatus`, the part that decides whether the engine is
running: the test `data.status === 'running'`. -/
def loadSystemStatus (resp : JsObj) : Bool :=
  match jsGetD resp "status" with
  | .vstr s => s == "running"
  | _ => false

/-- app_fixed.js `loadSystemStatus` applies the same test
`data.status === 'running'` to pick the displayed status. -/
def loadSystemStatusFixed (resp : JsObj) : Bool :=
  match jsGetD resp "status" with
  | .vstr s => s == "running"
  | _ => false

/-- Modelled from the spec: a concrete status object of the shape the spec
states, with the engine running. -/
def specStatusResp : JsObj :=
  objLit [("running", .vbool true), ("symbolCount", .vnum 3),
    ("activeAlertCount", .vnum 1), ("lastUpdate", .vnum 1700000000)]

/-- A status response of the shape the consumer actually tests. -/
def statusRespA : JsObj := objLit [("status", .vstr "running")]

/-- The same response with extra fields. -/
def statusRespB : JsObj :=
  statusRespA ++ [("monitored_symbols", .vobj []), ("active_alerts", .vnum 0)]

/-- app.js `updateMarketOverview`: the three data-dependent values it
renders, read from `stocks_count`, `alerts_count` and `last_update` (the
fourth card is a constant data-delay text). -/
def updateMarketOverview (d : JsObj) : JsVal × JsVal × JsVal :=
  (jsGetD d "stocks_count", jsGetD d "alerts_count", jsGetD d "last_update")

/-- app_fixed.js `updateMarketOverview`: the four values it renders, each
defaulted with `|| 0`, read from `total_stocks`, `total_value`,
`average_change` and `active_clients`. -/
def updateMarketOverviewFixed (d : JsObj) :
    JsVal × JsVal × JsVal × JsVal :=
  (jsOr (jsGetD d "total_stocks") (.vnum 0),
   jsOr (jsGetD d "total_value") (.vnum 0),
   jsOr (jsGetD d "average_change") (.vnum 0),
   jsOr (jsGetD d "active_clients") (.vnum 0))

/-- Modelled from the spec: a concrete market summary of the shape the
spec states, with exactly the four specified fields. -/
def specMarketSummary : JsObj :=
  objLit [("totalSymbols", .vnum 5), ("totalAlertsToday", .vnum 2),
    ("averageChange", .vnum 1), ("lastUpdate", .vnum 1700000000)]

/-- A market_summary message carrying all the fields either renderer
actually reads. -/
def summaryMsgA : JsObj :=
  objLit [("stocks_count", .vnum 5), ("alerts_count", .vnum 2),
    ("last_update", .vnum 1700000000), ("total_stocks", .vnum 5),
    ("total_value", .vnum 90210), ("average_change", .vnum 1),
    ("active_clients", .vnum 3)]

/-- The same message with an extra unrelated field. -/
def summaryMsgB : JsObj := summaryMsgA ++ [("extra", .vnum 4)]

/-- app.js alert rendering (`updateAlertsDisplay`): the per-alert values
interpolated into the item markup: the item class `alert.type || 'warning'`,
the symbol, the timestamp and the message. -/
def renderAlertItem (a : JsObj) : JsVal × JsVal × JsVal × JsVal :=
  (jsOr (jsGetD a "type") (.vstr "warning"), jsGetD a "symbol",
   jsGetD a "timestamp", jsGetD a "message")

/-- app_fixed.js alert rendering: symbol, message and timestamp. -/
def renderAlertItemFixed (a : JsObj) : JsVal × JsVal × JsVal :=
  (jsGetD a "symbol", jsGetD a "message", jsGetD a "timestamp")

/-- Modelled from the spec: the fields every event on the alert feed
carries (the engine that emits the feed is not part of the repository
sources). -/
def alertEventFields : List String :=
  ["symbol", "type", "severity", "message", "data", "timestamp"]

/-- The alert fields app.js's renderer reads. -/
def displayedAlertFields : List String :=
  ["type", "symbol", "timestamp", "message"]

/-- The alert fields app_fixed.js's renderer reads. -/
def displayedAlertFieldsFixed : List String :=
  ["symbol", "message", "timestamp"]

/-- Modelled from the spec: one Sample of the engine's data model (the
Monitoring and Alerting Engine itself is not part of the repository
sources; only its front-end consumers are). -/
structure Sample where
  symbol : String
  timestamp : Nat
  price : ℚ
  volume : ℚ

/-- Modelled from the spec: SMA(k) over the last k values, not yet
available before k samples exist. -/
def smaK (k : Nat) (vals : List ℚ) : Option ℚ :=
  if k ≤ vals.length then some ((lastN k vals).sum / (k : ℚ)) else none

/-- Modelled from the spec: the derived indicator state attached to a
Series, recomputed from the series contents on each accepted append. -/
structure IndicatorSnapshot where
  sma20 : Option ℚ
  sma50 : Option ℚ
  avgVolume20 : Option ℚ

/-- Modelled from the spec: recompute the IndicatorSnapshot from the
current series contents. -/
def computeIndicators (samples : List Sample) : IndicatorSnapshot :=
  { sma20 := smaK 20 (samples.map (fun smp => smp.price))
    sma50 := smaK 50 (samples.map (fun smp => smp.price))
    avgVolume20 := smaK 20 (samples.map (fun smp => smp.volume)) }

/-- Modelled from the spec: a per (symbol, tier) rolling Series with its
capacity bound. -/
structure Series where
  capacity : Nat
  samples : List Sample

/-- Modelled from the spec: the Series Store state for one series: the
rolling buffer together with its attached IndicatorSnapshot. -/
structure SeriesState where
  series : Series
  snapshot : IndicatorSnapshot

/-- Modelled from the spec: the result of a Series Store append. -/
inductive AppendResult where
  | Ok : AppendResult
  | Stale : AppendResult

/-- Modelled from the spec: the timestamp of the last sample of a
series. -/
def lastTimestamp (sr : Series) : Option Nat :=
  sr.samples.getLast?.map (fun smp => smp.timestamp)

/-- Modelled from the spec: the accepting path of append: push the sample,
evict the oldest when over capacity, recompute the snapshot. -/
def seriesAccept (st : SeriesState) (smp : Sample) : SeriesState :=
  let pushed := st.series.samples ++ [smp]
  let kept :=
    if st.series.capacity < pushed.length then pushed.tail else pushed
  { series := { capacity := st.series.capacity, samples := kept }
    snapshot := computeIndicators kept }

/-- Modelled from the spec: Series Store `append`. A sample whose
timestamp is at or before the series' last timestamp is rejected as
Stale with no state change; an accepted sample is pushed and published
as an instrument update (the third component is the list of published
updates). -/
def seriesAppend (st : SeriesState) (smp : Sample) :
    AppendResult × SeriesState × List Sample :=
  match lastTimestamp st.series with
  | some t =>
    if smp.timestamp ≤ t then (.Stale, st, [])
    else (.Ok, seriesAccept st smp, [smp])
  | none => (.Ok, seriesAccept st smp, [smp])

/-- A concrete one-sample series state for witnessing. -/
def sampleSeriesState : SeriesState :=
  { series := { capacity := 100, samples := [Sample.mk "AAPL" 10 150 1000] }
    snapshot := computeIndicators [Sample.mk "AAPL" 10 150 1000] }

/-- A concrete stale sample: same timestamp as the series' last. -/
def staleSample : Sample := Sample.mk "AAPL" 10 151 1100


theorem lastN_length (n : Nat) (l : List α) :
    (lastN n l).length = min n l.length := by
  simp [lastN]
  omega

theorem lastN_of_le (n : Nat) (l : List α) (h : l.length ≤ n) :
    lastN n l = l := by
  simp [lastN, Nat.sub_eq_zero_of_le h]

theorem lastN_append_of_lt (n : Nat) (l : List α) (x : α) (h : l.length < n) :
    lastN n (l ++ [x]) = lastN n l ++ [x] := by
  rw [lastN_of_le n l (Nat.le_of_lt h), lastN_of_le]
  simp
  omega

theorem tail_append_of_ne_nil (l m : List α) (h : l ≠ []) :
    (l ++ m).tail = l.tail ++ m := by
  cases l with
  | nil => exact absurd rfl h
  | cons a t => simp

theorem lastN_append_of_ge (n : Nat) (l : List α) (x : α) (hn : 0 < n)
    (h : n ≤ l.length) :
    lastN n (l ++ [x]) = (lastN n l).tail ++ [x] := by
  have hne : lastN n l ≠ [] := by
    intro hc
    have := lastN_length n l
    rw [hc] at this
    simp at this
    omega
  have h1 : (lastN n l).tail = l.drop (l.length - n + 1) := by
    simp [lastN, List.tail_drop]
  have h2 : lastN n (l ++ [x]) = (l ++ [x]).drop (l.length + 1 - n) := by
    simp [lastN]
  rw [h1, h2, List.drop_append_of_le_length (by omega)]
  congr 2
  omega


theorem lastN_step (l : List α) (x : α) :
    (if 20 ≤ l.length then (lastN 20 l ++ [x]).tail else lastN 20 l ++ [x])
      = lastN 20 (l ++ [x]) := by
  by_cases h : 20 ≤ l.length
  · rw [if_pos h, lastN_append_of_ge 20 l x (by omega) h,
      tail_append_of_ne_nil]
    intro hc
    have := lastN_length 20 l
    rw [hc] at this
    simp at this
    omega
  · rw [if_neg h, lastN_append_of_lt 20 l x (by omega)]

/-- Characterisation of the app.js chart state: each symbol's three arrays
are exactly the last 20 pushed values of the events for that symbol, in
arrival order. -/
theorem runChart_eq (evs : List ChartEvent) (s : String) :
    runChart evs s =
      ⟨lastN 20 ((pushedPoints evs s).map (fun ev => jsOrZero ev.price)),
       lastN 20 ((pushedPoints evs s).map (fun ev => jsOrZero ev.volume)),
       lastN 20 ((pushedPoints evs s).map (fun ev => ev.ts))⟩ := by
  induction evs using List.reverseRecOn with
  | nil => simp [runChart, pushedPoints, lastN, emptyChartEntry]
  | append_singleton evs ev ih =>
    have hrun : runChart (evs ++ [ev]) s = updateChartData (runChart evs) ev s := by
      simp [runChart, List.foldl_append]
    rw [hrun]
    by_cases hs : s = ev.symbol
    · have hsym : (ev.symbol == s) = true := by simp [hs]
      have hfilter : pushedPoints (evs ++ [ev]) s
          = pushedPoints evs s ++ [ev] := by
        simp [pushedPoints, List.filter_append, hsym]
      simp only [updateChartData]
      rw [if_pos hs, ih, hfilter]
      simp only [chartStep, List.map_append, List.map_cons, List.map_nil]
      by_cases hc : 20 ≤ (pushedPoints evs s).length
      · rw [if_pos (by rw [List.length_append, lastN_length,
          List.length_map]; simp; omega)]
        rw [ChartEntry.mk.injEq]
        refine ⟨?_, ?_, ?_⟩
        · rw [← lastN_step, if_pos (by rw [List.length_map]; exact hc)]
        · rw [← lastN_step, if_pos (by rw [List.length_map]; exact hc)]
        · rw [← lastN_step, if_pos (by rw [List.length_map]; exact hc)]
      · rw [if_neg (by rw [List.length_append, lastN_length,
          List.length_map]; simp; omega)]
        rw [ChartEntry.mk.injEq]
        refine ⟨?_, ?_, ?_⟩
        · rw [← lastN_step, if_neg (by rw [List.length_map]; exact hc)]
        · rw [← lastN_step, if_neg (by rw [List.length_map]; exact hc)]
        · rw [← lastN_step, if_neg (by rw [List.length_map]; exact hc)]
    · have hsym : (ev.symbol == s) = false := by
        simp only [beq_eq_false_iff_ne, ne_eq]
        exact fun h => hs h.symm
      have hfilter : pushedPoints (evs ++ [ev]) s = pushedPoints evs s := by
        simp [pushedPoints, List.filter_append, hsym]
      simp only [updateChartData]
      rw [if_neg hs, ih, hfilter]

/-- Characterisation of the app_fixed.js chart state: each symbol's
dataset is exactly the last 20 points built from that symbol's
truthy-price events, in arrival order. -/
theorem runChartFixed_eq (evs : List ChartEvent) (s : String) :
    runChartFixed evs s =
      lastN 20 ((pushedPointsFixed evs s).map
        (fun ev => ChartPoint.mk ev.ts (jsOrZero ev.price))) := by
  induction evs using List.reverseRecOn with
  | nil => simp [runChartFixed, pushedPointsFixed, lastN]
  | append_singleton evs ev ih =>
    have hrun : runChartFixed (evs ++ [ev]) s
        = updateChartDataFixed (runChartFixed evs) ev s := by
      simp [runChartFixed, List.foldl_append]
    rw [hrun]
    by_cases hs : s = ev.symbol
    · simp only [updateChartDataFixed]
      rw [if_pos hs]
      cases hp : ev.price with
      | none =>
        have hcf : (ev.symbol == s && jsOrZero ev.price != 0) = false := by
          simp [jsOrZero, hp]
        have hfilter : pushedPointsFixed (evs ++ [ev]) s
            = pushedPointsFixed evs s := by
          simp [pushedPointsFixed, List.filter_append, hcf]
        rw [hfilter, ← ih]
        simp [chartStepFixed, hp]
      | some p =>
        by_cases hp0 : p = 0
        · have hcf : (ev.symbol == s && jsOrZero ev.price != 0) = false := by
            simp [jsOrZero, hp, hp0]
          have hfilter : pushedPointsFixed (evs ++ [ev]) s
              = pushedPointsFixed evs s := by
            simp [pushedPointsFixed, List.filter_append, hcf]
          rw [hfilter, ← ih]
          simp [chartStepFixed, hp, hp0]
        · have hcf : (ev.symbol == s && jsOrZero ev.price != 0) = true := by
            simp [hs, jsOrZero, hp, hp0]
          have hfilter : pushedPointsFixed (evs ++ [ev]) s
              = pushedPointsFixed evs s ++ [ev] := by
            simp [pushedPointsFixed, List.filter_append, hcf]
          have hy : jsOrZero ev.price = p := by simp [jsOrZero, hp]
          rw [hfilter, ih]
          simp only [chartStepFixed, hp, List.map_append, List.map_cons,
            List.map_nil, hy]
          rw [if_neg hp0, ← lastN_step]
          by_cases hc : 20 ≤ (pushedPointsFixed evs s).length
          · rw [if_pos (by simp [lastN_length]; omega),
              if_pos (by simp; omega)]
            simp [jsOrZero]
          · rw [if_neg (by simp [lastN_length]; omega),
              if_neg (by simp; omega)]
            simp [jsOrZero]
    · have hcf : (ev.symbol == s && jsOrZero ev.price != 0) = false := by
        have : (ev.symbol == s) = false := by
          simp only [beq_eq_false_iff_ne, ne_eq]
          exact fun h => hs h.symm
        simp [this]
      have hfilter : pushedPointsFixed (evs ++ [ev]) s
          = pushedPointsFixed evs s := by
        simp [pushedPointsFixed, List.filter_append, hcf]
      simp only [updateChartDataFixed]
      rw [if_neg hs, ih, hfilter]


/-- Characterisation of the app.js recent-alerts list: it is the 20 newest
alerts, newest first. -/
theorem runAlerts_eq (evs : List JsObj) :
    runAlerts evs = evs.reverse.take 20 := by
  induction evs using List.reverseRecOn with
  | nil => simp [runAlerts]
  | append_singleton evs a ih =>
    have hrun : runAlerts (evs ++ [a]) = handleAlert a (runAlerts evs) := by
      simp [runAlerts, List.foldl_append]
    rw [hrun, ih]
    have hrev : (evs ++ [a]).reverse = a :: evs.reverse := by simp
    rw [hrev]
    have hrhs : (a :: evs.reverse).take 20 = a :: evs.reverse.take 19 :=
      List.take_succ_cons ..
    rw [hrhs]
    simp only [handleAlert]
    by_cases hc : 20 ≤ evs.reverse.length
    · rw [if_pos (by simp only [List.length_cons, List.length_take]; omega)]
      have hne : evs.reverse.take 20 ≠ [] := by
        intro hnil
        have := congrArg List.length hnil
        simp only [List.length_take, List.length_nil] at this
        omega
      rw [List.dropLast_cons_of_ne_nil hne]
      have e1 : (evs.reverse.take 20).dropLast = evs.reverse.take 19 := by
        rw [List.dropLast_eq_take, List.length_take, List.take_take]
        congr 1
        omega
      rw [e1]
    · rw [if_neg (by simp only [List.length_cons, List.length_take]; omega)]
      have e1 : evs.reverse.take 20 = evs.reverse :=
        List.take_of_length_le (by omega)
      have e2 : evs.reverse.take 19 = evs.reverse :=
        List.take_of_length_le (by omega)
      rw [e1, e2]

/-- Truthiness of a map lookup coincides with key membership when every
stored value is truthy. -/
theorem jsTruthy_jsGetD_iff (stocks : JsObj) (k : String)
    (hvals : ∀ p ∈ stocks, jsTruthy p.2 = true) :
    jsTruthy (jsGetD stocks k) = true ↔ k ∈ stocks.map Prod.fst := by
  induction stocks with
  | nil => simp [jsGetD, jsTruthy]
  | cons p rest ih =>
    obtain ⟨k', v⟩ := p
    by_cases hk : k' = k
    · subst hk
      have hv := hvals (k', v) (List.mem_cons_self _ _)
      simp [jsGetD, hv]
    · have ih' := ih (fun q hq => hvals q (List.mem_cons_of_mem _ hq))
      simp only [jsGetD, if_neg hk, ih', List.map_cons, List.mem_cons]
      constructor
      · intro h
        exact Or.inr h
      · intro h
        rcases h with h | h
        · exact absurd h.symm hk
        · exact h

/-- C1: after any sequence of stock_update events, each symbol's chart
buffer holds at most 20 data points and is exactly the suffix of the
most recently pushed points in arrival order, the oldest point dropped
first on overflow: in app.js the three parallel arrays hold the last 20
pushed prices, volumes and time labels, and in app_fixed.js the dataset
holds the last 20 points pushed from truthy-price events. -/
theorem chartData_fifo_bounded (evs : List ChartEvent) (s : String) :
    ((runChart evs s).prices.length ≤ 20 ∧
      (runChart evs s).volumes.length ≤ 20 ∧
      (runChart evs s).timestamps.length ≤ 20 ∧
      (runChart evs s).prices
        = lastN 20 ((pushedPoints evs s).map (fun ev => jsOrZero ev.price)) ∧
      (runChart evs s).volumes
        = lastN 20 ((pushedPoints evs s).map (fun ev => jsOrZero ev.volume)) ∧
      (runChart evs s).timestamps
        = lastN 20 ((pushedPoints evs s).map (fun ev => ev.ts))) ∧
    ((runChartFixed evs s).length ≤ 20 ∧
      runChartFixed evs s
        = lastN 20 ((pushedPointsFixed evs s).map
            (fun ev => ChartPoint.mk ev.ts (jsOrZero ev.price)))) := by
  have h1 := runChart_eq evs s
  have h2 := runChartFixed_eq evs s
  have hp : (runChart evs s).prices
      = lastN 20 ((pushedPoints evs s).map (fun ev => jsOrZero ev.price)) := by
    rw [h1]
  have hv : (runChart evs s).volumes
      = lastN 20 ((pushedPoints evs s).map (fun ev => jsOrZero ev.volume)) := by
    rw [h1]
  have ht : (runChart evs s).timestamps
      = lastN 20 ((pushedPoints evs s).map (fun ev => ev.ts)) := by
    rw [h1]
  refine ⟨⟨?_, ?_, ?_, hp, hv, ht⟩, ?_, h2⟩
  · rw [hp, lastN_length]; omega
  · rw [hv, lastN_length]; omega
  · rw [ht, lastN_length]; omega
  · rw [h2, lastN_length]; omega

/-- C10: in app.js the three parallel arrays of every symbol's chart entry
always have equal length, at most 20, after any sequence of
updateChartData calls. -/
theorem chartData_parallel_arrays (evs : List ChartEvent) (s : String) :
    (runChart evs s).prices.length = (runChart evs s).volumes.length ∧
    (runChart evs s).prices.length = (runChart evs s).timestamps.length ∧
    (runChart evs s).prices.length ≤ 20 := by
  rw [runChart_eq evs s]
  refine ⟨?_, ?_, ?_⟩ <;> simp [lastN_length]

/-- C2 counterexample: app_fixed.js handleAlert does not bound the alerts
list: after 21 alert events the retained list holds 21 alerts, exceeding
the claimed capacity of 20. -/
theorem handleAlertFixed_unbounded :
    ¬ ((runAlertsFixed (List.replicate 21 sampleAlert)).length ≤ 20) := by
  have h : (runAlertsFixed (List.replicate 21 sampleAlert)).length = 21 := by
    rfl
  omega

/-- C2 (amended): in app.js the recent-alerts list stays bounded by 20:
it is exactly the 20 newest alerts, newest first, the oldest retained
alert popped from the back when the bound is exceeded. app_fixed.js has
no such bound. -/
theorem handleAlert_bounded (evs : List JsObj) :
    (runAlerts evs).length ≤ 20 ∧ runAlerts evs = evs.reverse.take 20 := by
  refine ⟨?_, runAlerts_eq evs⟩
  rw [runAlerts_eq evs, List.length_take]
  omega

/-- C3: Series Store append of a sample whose timestamp is at or before
the series' last timestamp returns Stale and is a no-op: the series
buffer and the attached indicator snapshot are unchanged and nothing is
published to subscribers. -/
theorem seriesAppend_stale (st : SeriesState) (smp : Sample) (t : Nat)
    (hlast : lastTimestamp st.series = some t) (hle : smp.timestamp ≤ t) :
    seriesAppend st smp = (.Stale, st, []) := by
  simp [seriesAppend, hlast, hle]

/-- Witness for C3 at a concrete one-sample series state and a sample
with the same timestamp as the series' last. -/
theorem seriesAppend_stale_witness :
    seriesAppend sampleSeriesState staleSample
      = (AppendResult.Stale, sampleSeriesState, []) :=
  seriesAppend_stale sampleSeriesState staleSample 10 rfl (by decide)

/-- C4 counterexample: two spec-shaped instrument-update messages that
differ precisely in their tier, sample and indicatorSnapshot fields are
handled identically by handleStockUpdate in both files, and the stored
entry holds no price from the sample: the handler does not read the
interval tier, the sample or the indicator snapshot from those field
names. -/
theorem handleStockUpdate_ignores_spec_fields :
    handleStockUpdate specFeedMsgA [] = handleStockUpdate specFeedMsgB [] ∧
    handleStockUpdateFixed specFeedMsgA []
      = handleStockUpdateFixed specFeedMsgB [] ∧
    jsGetD specFeedMsgA "sample"
      = .vobj [("price", .vnum 100), ("volume", .vnum 1000)] ∧
    jsGetD specFeedMsgB "sample"
      = .vobj [("price", .vnum 999), ("volume", .vnum 1000)] ∧
    objGet (jsGetD (handleStockUpdate specFeedMsgA []) "AAPL") "price"
      = .vundefined :=
  ⟨rfl, rfl, rfl, rfl, rfl⟩

/-- C4 (amended): the stock_update messages the front end consumes carry
the fields symbol, data and timestamp; handleStockUpdate reads exactly
those three fields, so its result depends on no other field, in both
app.js and app_fixed.js. -/
theorem handleStockUpdate_reads_symbol_data_timestamp
    (m m' : JsObj) (stocks : JsObj)
    (hs : jsGetD m "symbol" = jsGetD m' "symbol")
    (hd : jsGetD m "data" = jsGetD m' "data")
    (ht : jsGetD m "timestamp" = jsGetD m' "timestamp") :
    handleStockUpdate m stocks = handleStockUpdate m' stocks ∧
    handleStockUpdateFixed m stocks = handleStockUpdateFixed m' stocks := by
  constructor
  · simp only [handleStockUpdate, hs, hd, ht]
  · simp only [handleStockUpdateFixed, hs, hd, ht]

/-- Witness for the amended C4 at two concrete delivered messages that
differ only in a field the handler does not read. -/
theorem handleStockUpdate_reads_witness :
    handleStockUpdate feedMsgA [] = handleStockUpdate feedMsgB [] ∧
    handleStockUpdateFixed feedMsgA [] = handleStockUpdateFixed feedMsgB [] :=
  handleStockUpdate_reads_symbol_data_timestamp feedMsgA feedMsgB [] rfl rfl
    rfl

/-- C5: both alert renderers read only AlertEvent fields: two alert
events agreeing on the six AlertEvent fields render identically, and
every displayed attribute name (type, symbol, timestamp, message in
app.js; symbol, message, timestamp in app_fixed.js) is among the
AlertEvent fields, hence present on every alert event. -/
theorem renderAlert_reads_alertEvent_fields (a a' : JsObj)
    (h : ∀ k ∈ alertEventFields, jsGetD a k = jsGetD a' k) :
    renderAlertItem a = renderAlertItem a' ∧
    renderAlertItemFixed a = renderAlertItemFixed a' ∧
    (∀ k ∈ displayedAlertFields, k ∈ alertEventFields) ∧
    (∀ k ∈ displayedAlertFieldsFixed, k ∈ alertEventFields) := by
  have hsym := h "symbol" (by simp [alertEventFields])
  have htyp := h "type" (by simp [alertEventFields])
  have hmsg := h "message" (by simp [alertEventFields])
  have hts := h "timestamp" (by simp [alertEventFields])
  refine ⟨?_, ?_, ?_, ?_⟩
  · simp only [renderAlertItem, hsym, htyp, hmsg, hts]
  · simp only [renderAlertItemFixed, hsym, hmsg, hts]
  · decide
  · decide

/-- Witness for C5 at a concrete alert carrying all six AlertEvent fields
and the same alert extended by an unread extra field. -/
theorem renderAlert_reads_witness :
    renderAlertItem sampleAlert = renderAlertItem sampleAlertExtra ∧
    renderAlertItemFixed sampleAlert = renderAlertItemFixed sampleAlertExtra := by
  have h := renderAlert_reads_alertEvent_fields sampleAlert sampleAlertExtra
    (by
      intro k hk
      simp only [alertEventFields, List.mem_cons, List.not_mem_nil,
        or_false] at hk
      rcases hk with rfl | rfl | rfl | rfl | rfl | rfl <;> rfl)
  exact ⟨h.1, h.2.1⟩

/-- C6 counterexample: on the spec-shaped status object whose boolean
running field is true, both consumers conclude the engine is not
running: the running field is not what the code reads. -/
theorem loadSystemStatus_ignores_running_field :
    jsGetD specStatusResp "running" = .vbool true ∧
    loadSystemStatus specStatusResp = false ∧
    loadSystemStatusFixed specStatusResp = false :=
  ⟨rfl, rfl, rfl⟩

/-- C6 (amended): the status consumers decide whether the engine is
running from the string field status compared with the literal running;
the verdict depends on no other field of the response, in both files. -/
theorem loadSystemStatus_reads_status (m m' : JsObj)
    (h : jsGetD m "status" = jsGetD m' "status") :
    loadSystemStatus m = loadSystemStatus m' ∧
    loadSystemStatusFixed m = loadSystemStatusFixed m' ∧
    (∀ s, jsGetD m "status" = .vstr s →
      (loadSystemStatus m = true ↔ s = "running")) := by
  refine ⟨?_, ?_, ?_⟩
  · simp only [loadSystemStatus, h]
  · simp only [loadSystemStatusFixed, h]
  · intro s hsv
    simp only [loadSystemStatus, hsv]
    simp

/-- Witness for the amended C6 at a concrete running status response and
the same response extended by fields the verdict does not read. -/
theorem loadSystemStatus_reads_witness :
    loadSystemStatus statusRespA = loadSystemStatus statusRespB ∧
    loadSystemStatus statusRespA = true := by
  have h := loadSystemStatus_reads_status statusRespA statusRespB rfl
  exact ⟨h.1, (h.2.2 "running" rfl).mpr rfl⟩

/-- C7 counterexample: on the spec-shaped market summary carrying exactly
totalSymbols, totalAlertsToday, averageChange and lastUpdate, every
value app.js's renderer displays is undefined and every value
app_fixed.js's renderer displays is the zero default: neither renderer
reads any of the four specified fields. -/
theorem updateMarketOverview_misses_spec_fields :
    updateMarketOverview specMarketSummary
      = (JsVal.vundefined, JsVal.vundefined, JsVal.vundefined) ∧
    updateMarketOverviewFixed specMarketSummary
      = (JsVal.vnum 0, JsVal.vnum 0, JsVal.vnum 0, JsVal.vnum 0) :=
  ⟨rfl, rfl⟩

/-- C7 (amended): the market-overview renderers read snake_case fields:
app.js displays stocks_count, alerts_count and last_update, app_fixed.js
displays total_stocks, total_value, average_change and active_clients
(each defaulted by zero), and neither output depends on any other
field. -/
theorem updateMarketOverview_reads (m m' : JsObj)
    (h1 : jsGetD m "stocks_count" = jsGetD m' "stocks_count")
    (h2 : jsGetD m "alerts_count" = jsGetD m' "alerts_count")
    (h3 : jsGetD m "last_update" = jsGetD m' "last_update")
    (h4 : jsGetD m "total_stocks" = jsGetD m' "total_stocks")
    (h5 : jsGetD m "total_value" = jsGetD m' "total_value")
    (h6 : jsGetD m "average_change" = jsGetD m' "average_change")
    (h7 : jsGetD m "active_clients" = jsGetD m' "active_clients") :
    updateMarketOverview m = updateMarketOverview m' ∧
    updateMarketOverviewFixed m = updateMarketOverviewFixed m' := by
  constructor
  · simp only [updateMarketOverview, h1, h2, h3]
  · simp only [updateMarketOverviewFixed, h4, h5, h6, h7]

/-- Witness for the amended C7 at a concrete summary message and the same
message extended by an unread extra field. -/
theorem updateMarketOverview_reads_witness :
    updateMarketOverview summaryMsgA = updateMarketOverview summaryMsgB ∧
    updateMarketOverviewFixed summaryMsgA
      = updateMarketOverviewFixed summaryMsgB :=
  updateMarketOverview_reads summaryMsgA summaryMsgB rfl rfl rfl rfl rfl rfl
    rfl

/-- C8: app.js formatVolume maps every falsy volume (none or zero) to the
string N/A, applies the B, M and K suffixed two-decimal formats on the
magnitude bands at and above a billion, a million and a thousand, prints
smaller positive volumes as plain decimals, and in particular renders a
volume of exactly zero as N/A rather than as its decimal string. -/
theorem formatVolume_spec :
    formatVolume none = "N/A" ∧
    formatVolume (some 0) = "N/A" ∧
    (∀ v : Nat, 1000000000 ≤ v →
      formatVolume (some v) = toFixed2 v 1000000000 ++ "B") ∧
    (∀ v : Nat, 1000000 ≤ v → v < 1000000000 →
      formatVolume (some v) = toFixed2 v 1000000 ++ "M") ∧
    (∀ v : Nat, 1000 ≤ v → v < 1000000 →
      formatVolume (some v) = toFixed2 v 1000 ++ "K") ∧
    (∀ v : Nat, 0 < v → v < 1000 → formatVolume (some v) = toString v) ∧
    formatVolume (some 0) ≠ "0" := by
  refine ⟨rfl, rfl, ?_, ?_, ?_, ?_, by decide⟩
  · intro v hv
    simp only [formatVolume]
    rw [if_neg (by omega), if_pos hv]
  · intro v hv hv'
    simp only [formatVolume]
    rw [if_neg (by omega), if_neg (by omega), if_pos hv]
  · intro v hv hv'
    simp only [formatVolume]
    rw [if_neg (by omega), if_neg (by omega), if_neg (by omega), if_pos hv]
  · intro v hv hv'
    simp only [formatVolume]
    rw [if_neg (by omega), if_neg (by omega), if_neg (by omega),
      if_neg (by omega)]

/-- Witness for C8 at concrete volumes in each band, including the zero
volume that renders as N/A. -/
theorem formatVolume_spec_witness :
    formatVolume (some 2500000000) = "2.50B" ∧
    formatVolume (some 1500000) = "1.50M" ∧
    formatVolume (some 999) = "999" ∧
    formatVolume (some 0) ≠ "0" := by
  have h := formatVolume_spec
  refine ⟨?_, ?_, ?_, h.2.2.2.2.2.2⟩
  · rw [h.2.2.1 2500000000 (by omega)]
    rfl
  · rw [h.2.2.2.1 1500000 (by omega) (by omega)]
    rfl
  · rw [h.2.2.2.2.2.1 999 (by omega) (by omega)]
    decide

/-- C9: app_fixed.js addStock emits a subscribe_stock request exactly
when the trimmed, upper-cased input symbol is non-empty and not already
a key of this.stocks (whose values, the entry objects handleStockUpdate
stores, are all truthy); in every case this.stocks itself is left
unchanged, and the only emission possible is that one subscription. -/
theorem addStock_spec (inputVal : String) (stocks : JsObj)
    (hvals : ∀ p ∈ stocks, jsTruthy p.2 = true) :
    (addStock inputVal stocks).2 = stocks ∧
    ((addStock inputVal stocks).1 = some (jsToUpperCase (jsTrim inputVal)) ↔
      (jsToUpperCase (jsTrim inputVal) ≠ "" ∧
        jsToUpperCase (jsTrim inputVal) ∉ stocks.map Prod.fst)) ∧
    ((addStock inputVal stocks).1 = none ∨
      (addStock inputVal stocks).1 = some (jsToUpperCase (jsTrim inputVal))) := by
  by_cases h0 : jsToUpperCase (jsTrim inputVal) = ""
  · have ha : addStock inputVal stocks = (none, stocks) := by
      simp only [addStock, if_pos h0]
    rw [ha]
    refine ⟨rfl, ?_, Or.inl rfl⟩
    constructor
    · intro hc
      exact absurd hc (by simp)
    · intro hc
      exact absurd h0 hc.1
  · by_cases ht : jsTruthy (jsGetD stocks (jsToUpperCase (jsTrim inputVal)))
        = true
    · have hmem := (jsTruthy_jsGetD_iff stocks _ hvals).mp ht
      have ha : addStock inputVal stocks = (none, stocks) := by
        simp only [addStock, if_neg h0, if_pos ht]
      rw [ha]
      refine ⟨rfl, ?_, Or.inl rfl⟩
      constructor
      · intro hc
        exact absurd hc (by simp)
      · intro hc
        exact absurd hmem hc.2
    · have hmem : jsToUpperCase (jsTrim inputVal) ∉ stocks.map Prod.fst := by
        intro hc
        exact ht ((jsTruthy_jsGetD_iff stocks _ hvals).mpr hc)
      have ha : addStock inputVal stocks
          = (some (jsToUpperCase (jsTrim inputVal)), stocks) := by
        simp only [addStock, if_neg h0, if_neg ht]
      rw [ha]
      exact ⟨rfl, ⟨fun _ => ⟨h0, hmem⟩, fun _ => rfl⟩, Or.inr rfl⟩

/-- Witness for C9: a fresh symbol is subscribed after trimming and
upper-casing, a known symbol is not, and the stocks map is unchanged. -/
theorem addStock_spec_witness :
    (addStock " msft " sampleStocks).2 = sampleStocks ∧
    (addStock " msft " sampleStocks).1 = some "MSFT" ∧
    (addStock "aapl" sampleStocks).1 = none := by
  have h1 := addStock_spec " msft " sampleStocks (by decide)
  have h2 := addStock_spec "aapl" sampleStocks (by decide)
  refine ⟨h1.1, ?_, ?_⟩
  · have e : jsToUpperCase (jsTrim " msft ") = "MSFT" := by decide
    rw [← e]
    exact (h1.2.1).mpr ⟨by decide, by decide⟩
  · rcases h2.2.2 with hnone | hsome
    · exact hnone
    · exfalso
      have hm := (h2.2.1).mp hsome
      exact hm.2 (by decide)

end QuantMonitor
